import Mathlib

/-!
Shallow embedding of `src/services/face_analyze/feel_flow.py` (FeelFlowAPI).

The file embeds the three public entry points of `feel_flow.py`:
  * `analyze`            — attribute aggregation over detected faces;
  * `verify`             — pairwise face verification between two images;
  * `get_image_metadata` — EXIF/metadata extraction from image bytes.

External collaborators that are not part of the repository snapshot
(`commons.functions.extract_faces`, `commons.functions.build_model`,
`commons.functions.represent`, `commons.functions.find_threshold`,
`commons.distance.find_cosine`, `commons.distance.find_euclidean`,
`FaceProcessor` conversion methods, numpy, PIL) are modelled as opaque
parameters of an environment record: the claims under study are decided by
the control flow written in `feel_flow.py` itself, not by the numeric
content of those collaborators.  Python floats are modelled as rationals;
Python exceptions as an explicit `PyErr` error type on `Except`.
-/

namespace FeelFlow

/-- A Python exception, by kind.  `valueError` is `ValueError` (raised by
`extract_faces` when detection is enforced and no face is found, and by
`min`/`np.argmin` on an empty sequence); `nameError` stands for the
`UnboundLocalError`/`AttributeError` raised in `verify`'s metric
else-branch, where `dst.l2_normalize` dereferences an unbound or float
`dst`; `indexError` is Python `IndexError`; `otherError n` is an arbitrary
distinct exception raised inside an external collaborator. -/
inductive PyErr where
  | valueError
  | nameError
  | keyError
  | indexError
  | otherError : Nat → PyErr
deriving DecidableEq, Repr

/-- A face bounding region, as the `region` dict produced by
`extract_faces`. -/
structure Region where
  x : Int
  y : Int
  w : Int
  h : Int
deriving DecidableEq, Repr

/-- A value stored in a Python result dict: the region dict, a float
(modelled as a rational), a string, or an opaque payload produced by an
attribute converter (its internal structure is irrelevant to the claims). -/
inductive Value where
  | vRegion : Region → Value
  | vRat : ℚ → Value
  | vStr : String → Value
  | vOpaque : Nat → Value
deriving DecidableEq, Repr

/-- A Python dict with string keys, as an insertion-ordered association
list (Python dicts preserve insertion order). -/
abbrev PyDict := List (String × Value)

/-- `d[k] = v` on an insertion-ordered dict: overwrite in place when the
key exists, append otherwise. -/
def dictSet {α : Type} (d : List (String × α)) (k : String) (v : α) :
    List (String × α) :=
  if d.any (fun p => p.1 = k) then
    d.map (fun p => if p.1 = k then (k, v) else p)
  else d ++ [(k, v)]

/-- Python `dict.update`: set each key/value of `kvs` in order. -/
def dictUpdate {α : Type} (d kvs : List (String × α)) : List (String × α) :=
  kvs.foldl (fun acc p => dictSet acc p.1 p.2) d

/-- The keys of a dict, in order. -/
def dictKeys {α : Type} (d : List (String × α)) : List String := d.map Prod.fst

/-- Python dict lookup `d.get(k)`: the value at the first (in a well-formed
dict: only) occurrence of key `k`, if present. -/
def dictGet {α : Type} : List (String × α) → String → Option α
  | [], _ => none
  | p :: rest, k => if p.1 = k then some p.2 else dictGet rest k

/-- Python `str.capitalize()`: first character upper-cased, the rest
lower-cased (`analyze` passes `a.capitalize()` to `build_model`). -/
def pyCapitalize (s : String) : String :=
  match s.data with
  | [] => ""
  | c :: rest => String.mk (c.toUpper :: rest.map Char.toLower)

/-! ### `analyze` (feel_flow.py lines 16–53) -/

/-- A predictor instance returned by `F.build_model`; identity is all the
claims need, so an instance is an opaque id. -/
abbrev Model := Nat

/-- One element of the sequence returned by `F.extract_faces`: the cropped
face array (only its shape and an opaque id matter here), the region dict
and the detection confidence.  `shape0`/`shape1` are `img.shape[0]` and
`img.shape[1]` (numpy dimensions, hence naturals). -/
structure FaceObj where
  crop : Nat
  shape0 : Nat
  shape1 : Nat
  region : Region
  confidence : ℚ
deriving DecidableEq, Repr

/-- The external collaborators of one `analyze` call.
`extractResult` is what `F.extract_faces(img, (224,224), False,
enforce_detection, align)` produces for the call's image and flags: a face
list, or an exception.  `build` is `F.build_model` (fallible: loading a
model may raise).  `predict` is the composite
`getattr(FaceProcessor, action)(model.predict(img))` for one action, one
predictor instance and one cropped face: it returns the attribute's result
dict, or the exception raised by prediction or conversion. -/
structure AnalyzeEnv where
  extractResult : Except PyErr (List FaceObj)
  actions : List (String × Bool)
  build : String → Except PyErr Model
  predict : String → Model → FaceObj → Except PyErr PyDict

/-- The dict comprehension
`{a: F.build_model(a.capitalize()) for a, s in actions.items() if s}`,
together with the list of names actually passed to `F.build_model`, in
call order (the comprehension stops at the first raised exception). -/
def buildModels (build : String → Except PyErr Model) :
    List (String × Bool) → Except PyErr (List (String × Model)) × List String
  | [] => (.ok [], [])
  | (a, s) :: rest =>
    if s then
      match build (pyCapitalize a) with
      | .error e => (.error e, [pyCapitalize a])
      | .ok m =>
        match buildModels build rest with
        | (.error e, log) => (.error e, pyCapitalize a :: log)
        | (.ok ms, log) => (.ok ((a, m) :: ms), pyCapitalize a :: log)
    else buildModels build rest

/-- `obj = {"region": region, "face_confidence": confidence}`: the record a
face starts from, before the attribute loop. -/
def initRecord (f : FaceObj) : PyDict :=
  [("region", Value.vRegion f.region), ("face_confidence", Value.vRat f.confidence)]

/-- The body of the inner `for action, model in models.items()` loop for one
face: start from the initial record, then for each action try
`obj.update(getattr(FaceProcessor, action)(model.predict(img)))` and skip
the action on any exception.  Also returns the (action, predictor instance)
pair used at each iteration, to record which instance each iteration
dereferences. -/
def processFace (predict : String → Model → FaceObj → Except PyErr PyDict)
    (models : List (String × Model)) (f : FaceObj) : PyDict × List (String × Model) :=
  (models.foldl (fun obj am =>
      match predict am.1 am.2 f with
      | .ok kvs => dictUpdate obj kvs
      | .error _ => obj) (initRecord f),
   models)

/-- The outer `for img, region, confidence in img_objs` loop: faces whose
crop has a non-positive dimension are skipped (`continue`), every other
face contributes one record, in detection order.  The second component
collects every (action, instance) iteration of the inner loop. -/
def runFaces (predict : String → Model → FaceObj → Except PyErr PyDict)
    (models : List (String × Model)) :
    List FaceObj → List PyDict × List (String × Model)
  | [] => ([], [])
  | f :: fs =>
    if f.shape0 ≤ 0 ∨ f.shape1 ≤ 0 then runFaces predict models fs
    else
      ((processFace predict models f).1 :: (runFaces predict models fs).1,
       (processFace predict models f).2 ++ (runFaces predict models fs).2)

/-- The observable outcome of one `analyze` call: its return value (or the
exception it raises), the `build_model` invocations it made, and the
(action, predictor instance) pairs its inner loop iterated over. -/
structure AnalyzeOut where
  result : Except PyErr (List PyDict)
  buildLog : List String
  useLog : List (String × Model)
deriving Repr

/-- `analyze` (feel_flow.py lines 16–53).  `except ValueError: return [{}]`
catches only `ValueError` from extraction; any other exception, and any
exception from the `models` dict comprehension, propagates. -/
def analyze (env : AnalyzeEnv) : AnalyzeOut :=
  match env.extractResult with
  | .error .valueError => { result := .ok [[]], buildLog := [], useLog := [] }
  | .error e => { result := .error e, buildLog := [], useLog := [] }
  | .ok faces =>
    match buildModels env.build env.actions with
    | (.error e, log) => { result := .error e, buildLog := log, useLog := [] }
    | (.ok models, log) =>
      { result := .ok (runFaces env.predict models faces).1, buildLog := log,
        useLog := (runFaces env.predict models faces).2 }

/-! ### `verify` (feel_flow.py lines 56–104) -/

/-- One face as used by `verify`: the cropped image (opaque id, fed to
`F.represent`) and its region. -/
structure VFace where
  crop : Nat
  region : Region
deriving DecidableEq, Repr

/-- The external collaborators of one `verify` call.  `extract1`
(resp. `extract2`) is what `F.extract_faces(img1, …)`
(resp. `F.extract_faces(img2, …)`) produces for the call's images and
flags — `extract_faces` is deterministic for fixed arguments, so the
re-extraction of `img2` inside the outer loop yields the same value each
time.  `represent` is `F.represent(c, …)[0]["embedding"]` for a crop.
`cosineFn`/`euclideanFn` are `commons.distance.find_cosine` and
`find_euclidean` (external module, opaque numeric functions).
`find_threshold` is `F.find_threshold(model_name, distance_metric)`. -/
structure VerifyEnv where
  extract1 : Except PyErr (List VFace)
  extract2 : Except PyErr (List VFace)
  represent : Nat → List ℚ
  cosineFn : List ℚ → List ℚ → ℚ
  euclideanFn : List ℚ → List ℚ → ℚ
  find_threshold : String → String → ℚ

/-- The `if/elif/else` metric dispatch (lines 83–88).  The `else` branch
runs `find_euclidean(dst.l2_normalize(repr1), dst.l2_normalize(repr2))`:
`dst` is unbound on the first pair (`UnboundLocalError`) and a float on
later pairs (`AttributeError`), so the branch always raises. -/
def metricDispatch (env : VerifyEnv) (distance_metric : String)
    (repr1 repr2 : List ℚ) : Except PyErr ℚ :=
  if distance_metric = "cosine" then .ok (env.cosineFn repr1 repr2)
  else if distance_metric = "euclidean" then .ok (env.euclideanFn repr1 repr2)
  else .error .nameError

/-- The inner `for c2, r2, _ in F.extract_faces(img2, …)` loop for a fixed
outer face `f1`: appends one (distance, (r1, r2)) entry per inner face, in
order; the first exception aborts the call. -/
def innerPairs (env : VerifyEnv) (distance_metric : String) (f1 : VFace) :
    List VFace → Except PyErr (List (ℚ × Region × Region))
  | [] => .ok []
  | f2 :: rest =>
    match metricDispatch env distance_metric
        (env.represent f1.crop) (env.represent f2.crop) with
    | .error e => .error e
    | .ok d =>
      match innerPairs env distance_metric f1 rest with
      | .error e => .error e
      | .ok tail => .ok ((d, f1.region, f2.region) :: tail)

/-- The outer `for c1, r1, _ in F.extract_faces(img1, …)` loop: for each
outer face, re-extract `img2` and run the inner loop, concatenating the
per-row entries in order. -/
def outerPairs (env : VerifyEnv) (distance_metric : String) :
    List VFace → Except PyErr (List (ℚ × Region × Region))
  | [] => .ok []
  | f1 :: rest =>
    match env.extract2 with
    | .error e => .error e
    | .ok fs2 =>
      match innerPairs env distance_metric f1 fs2 with
      | .error e => .error e
      | .ok row =>
        match outerPairs env distance_metric rest with
        | .error e => .error e
        | .ok tail => .ok (row ++ tail)

/-- Python `min(x :: xs)` for a nonempty list. -/
def pyMinVal (x : ℚ) (xs : List ℚ) : ℚ := xs.foldl min x

/-- Python `min(distances)`: raises `ValueError` on an empty sequence. -/
def pyMin : List ℚ → Except PyErr ℚ
  | [] => .error .valueError
  | x :: xs => .ok (pyMinVal x xs)

/-- `np.argmin(distances)` for a Python list of floats: the index of the
first occurrence of the minimum; raises `ValueError` on an empty
sequence. -/
def npArgmin : List ℚ → Except PyErr Nat
  | [] => .error .valueError
  | x :: xs => .ok ((x :: xs).findIdx (fun y => y = pyMinVal x xs))

/-- The dict returned by `verify`. -/
structure VerifyResult where
  verified : Bool
  distance : ℚ
  threshold : ℚ
  model : String
  similarity_metric : String
  facial_area1 : Region
  facial_area2 : Region
deriving DecidableEq, Repr

/-- `verify` (feel_flow.py lines 56–104): run the nested extraction loops,
resolve the threshold, take `min(distances)` and
`regions[np.argmin(distances)]`, and assemble the result dict with
`verified = distance <= threshold`. -/
def verify (env : VerifyEnv) (model_name distance_metric : String) :
    Except PyErr VerifyResult :=
  match env.extract1 with
  | .error e => .error e
  | .ok fs1 =>
    match outerPairs env distance_metric fs1 with
    | .error e => .error e
    | .ok prs =>
      let distances := prs.map (fun t => t.1)
      let regions := prs.map (fun t => t.2)
      let threshold := env.find_threshold model_name distance_metric
      match pyMin distances with
      | .error e => .error e
      | .ok distance =>
        match npArgmin distances with
        | .error e => .error e
        | .ok idx =>
          match regions[idx]? with
          | none => .error .indexError
          | some fa =>
            .ok { verified := decide (distance ≤ threshold), distance := distance,
                  threshold := threshold, model := model_name,
                  similarity_metric := distance_metric,
                  facial_area1 := fa.1, facial_area2 := fa.2 }

/-! ### `get_image_metadata` (feel_flow.py lines 107–165) -/

/-- The guard of feel_flow.py line 40, negated: the face's crop has two
positive dimensions. -/
def nonDegenerate (f : FaceObj) : Bool := !decide (f.shape0 ≤ 0 ∨ f.shape1 ≤ 0)

/-- The distance the dispatch computes for a recognised metric name. -/
def validDist (env : VerifyEnv) (metric : String) (r1 r2 : List ℚ) : ℚ :=
  if metric = "cosine" then env.cosineFn r1 r2 else env.euclideanFn r1 r2

/-- The full cross-product of face pairs, row-major in extraction order,
with the distance and the two regions of each pair. -/
def crossList (env : VerifyEnv) (metric : String) (fs1 fs2 : List VFace) :
    List (ℚ × Region × Region) :=
  fs1.flatMap (fun f1 => fs2.map (fun f2 =>
    (validDist env metric (env.represent f1.crop) (env.represent f2.crop),
     f1.region, f2.region)))

/-! ### Concrete instances used by counterexamples and witnesses -/

/-- A 224×224 detected face. -/
def wFace : FaceObj :=
  { crop := 0, shape0 := 224, shape1 := 224, region := ⟨10, 20, 50, 60⟩,
    confidence := 9/10 }

/-- A detected face whose crop has zero height. -/
def degFace : FaceObj :=
  { crop := 1, shape0 := 0, shape1 := 224, region := ⟨0, 0, 5, 5⟩,
    confidence := 1/2 }

/-- `analyze` environment whose extraction raises `ValueError` (detection
enforced, no face found). -/
def noFaceEnv : AnalyzeEnv :=
  { extractResult := .error .valueError
  , actions := [("age", true), ("emotion", true), ("gender", true), ("race", true)]
  , build := fun _ => .ok 0
  , predict := fun _ _ _ => .ok [] }

/-- `analyze` environment with one face whose `"age"` predictor raises and
whose `"emotion"` predictor succeeds. -/
def attrEnv : AnalyzeEnv :=
  { extractResult := .ok [wFace]
  , actions := [("age", true), ("emotion", true)]
  , build := fun s => if s = "Age" then .ok 1 else .ok 2
  , predict := fun a _ _ =>
      if a = "age" then .error (.otherError 7)
      else .ok [("emotion", Value.vOpaque 3)] }

/-- `analyze` environment with one degenerate and one proper face. -/
def degEnv : AnalyzeEnv :=
  { extractResult := .ok [degFace, wFace]
  , actions := [("age", true)]
  , build := fun _ => .ok 1
  , predict := fun _ _ _ => .ok [("age", Value.vOpaque 4)] }

/-- `analyze` environment whose `"Emotion"` predictor fails to load. -/
def buildFailEnv : AnalyzeEnv :=
  { extractResult := .ok [wFace]
  , actions := [("age", true), ("emotion", true)]
  , build := fun s => if s = "Emotion" then .error (.otherError 9) else .ok 1
  , predict := fun _ _ _ => .ok [] }

/-- Two faces extracted from the first image. -/
def wFs1 : List VFace := [⟨0, ⟨0, 0, 10, 10⟩⟩, ⟨1, ⟨5, 5, 10, 10⟩⟩]

/-- One face extracted from the second image. -/
def wFs2 : List VFace := [⟨2, ⟨1, 1, 8, 8⟩⟩]

/-- `verify` environment: two faces in the first image, one in the second,
one-dimensional embeddings, simple metric functions. -/
def vEnvW : VerifyEnv :=
  { extract1 := .ok wFs1
  , extract2 := .ok wFs2
  , represent := fun n => [(n : ℚ)]
  , cosineFn := fun a _ => a.headD 0
  , euclideanFn := fun a _ => a.headD 0
  , find_threshold := fun _ _ => 0 }

/-- `verify` environment where both extractions yield zero faces. -/
def vEnvNoFaces : VerifyEnv :=
  { extract1 := .ok [], extract2 := .ok [], represent := fun _ => []
  , cosineFn := fun _ _ => 0, euclideanFn := fun _ _ => 0
  , find_threshold := fun _ _ => 0 }

/-- `verify` environment where only the second image yields zero faces. -/
def vEnvOneEmpty : VerifyEnv :=
  { extract1 := .ok [⟨0, ⟨0, 0, 1, 1⟩⟩], extract2 := .ok []
  , represent := fun _ => [], cosineFn := fun _ _ => 0
  , euclideanFn := fun _ _ => 0, find_threshold := fun _ _ => 0 }

/-- The result `verify` computes on `vEnvW` with the cosine metric:
distances are 0 and 1, so the first pair wins and 0 ≤ 0 verifies. -/
def wRes : VerifyResult :=
  { verified := true, distance := 0, threshold := 0, model := "VGG-Face"
  , similarity_metric := "cosine", facial_area1 := ⟨0, 0, 10, 10⟩
  , facial_area2 := ⟨1, 1, 8, 8⟩ }

theorem dictGet_eq_none_iff {α : Type} (d : List (String × α)) (k : String) :
    dictGet d k = none ↔ k ∉ dictKeys d := by
  induction d with
  | nil => simp [dictGet, dictKeys]
  | cons p rest ih =>
    by_cases hp : p.1 = k
    · simp [dictGet, dictKeys, hp]
    · simp [dictGet, dictKeys, hp, ih, Ne.symm hp]

theorem dictGet_map_overwrite {α : Type} (k k' : String) (v : α) (h : k' ≠ k) :
    ∀ d : List (String × α),
      dictGet (d.map (fun p => if p.1 = k then (k, v) else p)) k' = dictGet d k' := by
  intro d
  induction d with
  | nil => rfl
  | cons p rest ih =>
    by_cases hp : p.1 = k
    · simp [dictGet, hp, Ne.symm h, ih]
    · by_cases hk' : p.1 = k'
      · simp only [List.map_cons, if_neg hp, dictGet, if_pos hk']
      · simp only [List.map_cons, if_neg hp, dictGet, if_neg hk', ih]

theorem dictGet_append_single {α : Type} (k k' : String) (v : α) (h : k' ≠ k) :
    ∀ d : List (String × α), dictGet (d ++ [(k, v)]) k' = dictGet d k' := by
  intro d
  induction d with
  | nil => simp [dictGet, Ne.symm h]
  | cons p rest ih =>
    by_cases hk' : p.1 = k'
    · simp [dictGet, hk']
    · simp [dictGet, hk', ih]

theorem dictGet_dictSet_ne {α : Type} (d : List (String × α)) (k k' : String)
    (v : α) (h : k' ≠ k) : dictGet (dictSet d k v) k' = dictGet d k' := by
  unfold dictSet
  by_cases hmem : d.any (fun p => p.1 = k)
  · simp only [hmem, if_true]
    exact dictGet_map_overwrite k k' v h d
  · simp only [hmem, if_false]
    exact dictGet_append_single k k' v h d

theorem dictGet_dictUpdate_not_mem {α : Type} (kvs : List (String × α))
    (k : String) (h : k ∉ dictKeys kvs) :
    ∀ d : List (String × α), dictGet (dictUpdate d kvs) k = dictGet d k := by
  induction kvs with
  | nil => intro d; rfl
  | cons p rest ih =>
    intro d
    simp only [dictKeys, List.map_cons, List.mem_cons] at h
    push_neg at h
    have hstep : dictGet (dictSet d p.1 p.2) k = dictGet d k :=
      dictGet_dictSet_ne d p.1 k p.2 h.1
    have htail := ih (by simpa [dictKeys] using h.2) (dictSet d p.1 p.2)
    calc dictGet (dictUpdate d (p :: rest)) k
        = dictGet (dictUpdate (dictSet d p.1 p.2) rest) k := rfl
      _ = dictGet (dictSet d p.1 p.2) k := htail
      _ = dictGet d k := hstep

/-! ### `analyze` lemmas -/

theorem processFace_dictGet_untouched
    (predict : String → Model → FaceObj → Except PyErr PyDict)
    (f : FaceObj) (k : String) :
    ∀ (models : List (String × Model)) (init : PyDict),
      (∀ a m kvs, (a, m) ∈ models → predict a m f = .ok kvs → k ∉ dictKeys kvs) →
      dictGet (models.foldl (fun obj am =>
        match predict am.1 am.2 f with
        | .ok kvs => dictUpdate obj kvs
        | .error _ => obj) init) k = dictGet init k := by
  intro models
  induction models with
  | nil => intro init _; rfl
  | cons am rest ih =>
    intro init hk
    have hstep :
        dictGet (match predict am.1 am.2 f with
          | .ok kvs => dictUpdate init kvs
          | .error _ => init) k = dictGet init k := by
      cases hp : predict am.1 am.2 f with
      | ok kvs =>
        exact dictGet_dictUpdate_not_mem kvs k
          (hk am.1 am.2 kvs (List.mem_cons_self _ _) hp) init
      | error e => rfl
    calc dictGet (List.foldl _ init (am :: rest)) k
        = dictGet (List.foldl _ (match predict am.1 am.2 f with
            | .ok kvs => dictUpdate init kvs
            | .error _ => init) rest) k := rfl
      _ = dictGet (match predict am.1 am.2 f with
            | .ok kvs => dictUpdate init kvs
            | .error _ => init) k := by
          exact ih _ (fun a m kvs ham hp => hk a m kvs (List.mem_cons_of_mem _ ham) hp)
      _ = dictGet init k := hstep

theorem runFaces_fst_eq (predict : String → Model → FaceObj → Except PyErr PyDict)
    (models : List (String × Model)) :
    ∀ faces : List FaceObj,
      (runFaces predict models faces).1 =
        (faces.filter nonDegenerate).map
          (fun f => (processFace predict models f).1) := by
  intro faces
  induction faces with
  | nil => rfl
  | cons f fs ih =>
    by_cases hd : f.shape0 ≤ 0 ∨ f.shape1 ≤ 0
    · have hnd : nonDegenerate f = false := by
        unfold nonDegenerate
        rw [decide_eq_true hd]
        rfl
      rw [List.filter_cons_of_neg (by simp [hnd])]
      simp only [runFaces, if_pos hd]
      exact ih
    · have hnd : nonDegenerate f = true := by
        unfold nonDegenerate
        rw [decide_eq_false hd]
        rfl
      rw [List.filter_cons_of_pos hnd, List.map_cons]
      simp only [runFaces, if_neg hd]
      rw [ih]

theorem runFaces_useLog_subset (predict : String → Model → FaceObj → Except PyErr PyDict)
    (models : List (String × Model)) :
    ∀ (faces : List FaceObj) (x : String × Model),
      x ∈ (runFaces predict models faces).2 → x ∈ models := by
  intro faces
  induction faces with
  | nil => intro x hx; simp [runFaces] at hx
  | cons f fs ih =>
    intro x hx
    by_cases hd : f.shape0 ≤ 0 ∨ f.shape1 ≤ 0
    · simp only [runFaces, if_pos hd] at hx
      exact ih x hx
    · simp only [runFaces, if_neg hd, processFace, List.mem_append] at hx
      rcases hx with hx | hx
      · exact hx
      · exact ih x hx

theorem buildModels_ok_spec (build : String → Except PyErr Model) :
    ∀ (actions : List (String × Bool)) (ms : List (String × Model)) (log : List String),
      buildModels build actions = (.ok ms, log) →
      log = (actions.filter (fun p => p.2)).map (fun p => pyCapitalize p.1) ∧
      ms.map Prod.fst = (actions.filter (fun p => p.2)).map Prod.fst ∧
      (∀ p ∈ ms, build (pyCapitalize p.1) = .ok p.2) := by
  intro actions
  induction actions with
  | nil =>
    intro ms log h
    simp only [buildModels, Prod.mk.injEq, Except.ok.injEq] at h
    simp [← h.1, ← h.2]
  | cons p rest ih =>
    intro ms log h
    obtain ⟨a, s⟩ := p
    cases s with
    | false =>
      simp only [buildModels, Bool.false_eq_true, if_false] at h
      have := ih ms log h
      simpa [List.filter_cons] using this
    | true =>
      simp only [buildModels, if_true] at h
      cases hb : build (pyCapitalize a) with
      | error e => rw [hb] at h; simp at h
      | ok m =>
        rw [hb] at h
        cases hr : buildModels build rest with
        | mk r log' =>
          rw [hr] at h
          cases r with
          | error e => simp at h
          | ok ms' =>
            simp only [Prod.mk.injEq, Except.ok.injEq] at h
            obtain ⟨ih1, ih2, ih3⟩ := ih ms' log' hr
            refine ⟨?_, ?_, ?_⟩
            · simp [List.filter_cons, ← h.1, ← h.2, ih1]
            · simp [List.filter_cons, ← h.1, ih2]
            · intro q hq
              rw [← h.1] at hq
              rcases List.mem_cons.mp hq with hq | hq
              · rw [hq]; exact hb
              · exact ih3 q hq

theorem buildModels_error_append (build : String → Except PyErr Model) :
    ∀ (pre : List (String × Bool)) (a : String) (post : List (String × Bool)) (e : PyErr),
      (∀ p ∈ pre, p.2 = true → ∃ m, build (pyCapitalize p.1) = .ok m) →
      build (pyCapitalize a) = .error e →
      ∃ log, buildModels build (pre ++ (a, true) :: post) = (.error e, log) := by
  intro pre
  induction pre with
  | nil =>
    intro a post e _ ha
    refine ⟨[pyCapitalize a], ?_⟩
    simp [buildModels, ha]
  | cons q pre' ih =>
    intro a post e hpre ha
    obtain ⟨b, s⟩ := q
    cases s with
    | false =>
      obtain ⟨log, hlog⟩ := ih a post e
        (fun p hp hs => hpre p (List.mem_cons_of_mem _ hp) hs) ha
      exact ⟨log, by simpa [buildModels] using hlog⟩
    | true =>
      obtain ⟨m, hm⟩ := hpre (b, true) (List.mem_cons_self _ _) rfl
      obtain ⟨log, hlog⟩ := ih a post e
        (fun p hp hs => hpre p (List.mem_cons_of_mem _ hp) hs) ha
      refine ⟨pyCapitalize b :: log, ?_⟩
      simp only [List.cons_append, buildModels, if_true]
      rw [hm, show pre' ++ (a, true) :: post = pre'.append ((a, true) :: post) from rfl] at *
      rw [hlog]

theorem assoc_nodup_unique {β : Type} :
    ∀ (l : List (String × β)), (l.map Prod.fst).Nodup →
      ∀ (a : String) (m m' : β), (a, m) ∈ l → (a, m') ∈ l → m = m' := by
  intro l
  induction l with
  | nil => intro _ a m m' hm; simp at hm
  | cons p rest ih =>
    intro hnd a m m' hm hm'
    simp only [List.map_cons, List.nodup_cons] at hnd
    rcases List.mem_cons.mp hm with h1 | h1 <;> rcases List.mem_cons.mp hm' with h2 | h2
    · rw [← h1] at h2
      exact ((Prod.mk.injEq _ _ _ _).mp h2.symm).2
    · exfalso
      have ha : p.1 = a := by rw [← h1]
      have hmem : a ∈ rest.map Prod.fst := by
        simpa using List.mem_map_of_mem Prod.fst h2
      rw [ha] at hnd
      exact hnd.1 hmem
    · exfalso
      have ha : p.1 = a := by rw [← h2]
      have hmem : a ∈ rest.map Prod.fst := by
        simpa using List.mem_map_of_mem Prod.fst h1
      rw [ha] at hnd
      exact hnd.1 hmem
    · exact ih hnd.2 a m m' h1 h2

/-! ### `verify` lemmas -/

theorem metricDispatch_valid (env : VerifyEnv) (metric : String)
    (hm : metric = "cosine" ∨ metric = "euclidean") (r1 r2 : List ℚ) :
    metricDispatch env metric r1 r2 = .ok (validDist env metric r1 r2) := by
  rcases hm with hm | hm <;> simp [metricDispatch, validDist, hm]

theorem innerPairs_valid (env : VerifyEnv) (metric : String)
    (hm : metric = "cosine" ∨ metric = "euclidean") (f1 : VFace) :
    ∀ fs2 : List VFace,
      innerPairs env metric f1 fs2 = .ok (fs2.map (fun f2 =>
        (validDist env metric (env.represent f1.crop) (env.represent f2.crop),
         f1.region, f2.region))) := by
  intro fs2
  induction fs2 with
  | nil => rfl
  | cons f2 rest ih =>
    simp only [innerPairs, metricDispatch_valid env metric hm, ih, List.map_cons]

theorem outerPairs_valid (env : VerifyEnv) (metric : String) (fs2 : List VFace)
    (hm : metric = "cosine" ∨ metric = "euclidean")
    (h2 : env.extract2 = .ok fs2) :
    ∀ fs1 : List VFace,
      outerPairs env metric fs1 = .ok (crossList env metric fs1 fs2) := by
  intro fs1
  induction fs1 with
  | nil => rfl
  | cons f1 rest ih =>
    simp only [outerPairs, h2, innerPairs_valid env metric hm f1 fs2, ih,
      crossList, List.flatMap_cons]

theorem crossList_length (env : VerifyEnv) (metric : String) (fs2 : List VFace) :
    ∀ fs1 : List VFace,
      (crossList env metric fs1 fs2).length = fs1.length * fs2.length := by
  intro fs1
  induction fs1 with
  | nil => simp [crossList]
  | cons f1 rest ih =>
    simp only [crossList, List.flatMap_cons, List.length_append, List.length_map,
      List.length_cons] at ih ⊢
    rw [ih]
    ring

theorem pyMinVal_le (x : ℚ) (xs : List ℚ) : ∀ y ∈ x :: xs, pyMinVal x xs ≤ y := by
  induction xs generalizing x with
  | nil =>
    intro y hy
    simp only [List.mem_singleton] at hy
    simp [pyMinVal, hy]
  | cons a as ih =>
    intro y hy
    have hle : pyMinVal (min x a) as ≤ min x a :=
      ih (min x a) (min x a) (List.mem_cons_self _ _)
    have hfold : pyMinVal x (a :: as) = pyMinVal (min x a) as := rfl
    rcases List.mem_cons.mp hy with hx | hrest
    · rw [hfold, hx]
      exact le_trans hle (min_le_left _ _)
    · rcases List.mem_cons.mp hrest with ha | has
      · rw [hfold, ha]
        exact le_trans hle (min_le_right _ _)
      · rw [hfold]
        exact ih (min x a) y (List.mem_cons_of_mem _ has)

theorem pyMinVal_mem (x : ℚ) : ∀ xs : List ℚ, pyMinVal x xs ∈ x :: xs := by
  intro xs
  induction xs generalizing x with
  | nil => simp [pyMinVal]
  | cons a as ih =>
    have hfold : pyMinVal x (a :: as) = pyMinVal (min x a) as := rfl
    rcases List.mem_cons.mp (ih (min x a)) with h | h
    · rcases min_choice x a with hc | hc
      · rw [hfold, h, hc]
        exact List.mem_cons_self _ _
      · rw [hfold, h, hc]
        exact List.mem_cons_of_mem _ (List.mem_cons_self _ _)
    · rw [hfold]
      exact List.mem_cons_of_mem _ (List.mem_cons_of_mem _ h)

theorem npArgmin_spec (x : ℚ) (xs : List ℚ) :
    ∃ i, npArgmin (x :: xs) = .ok i ∧
      ∃ hi : i < (x :: xs).length,
        (x :: xs).get ⟨i, hi⟩ = pyMinVal x xs ∧
        ∀ j (hj : j < (x :: xs).length), j < i →
          pyMinVal x xs < (x :: xs).get ⟨j, hj⟩ := by
  have hmem : pyMinVal x xs ∈ x :: xs := pyMinVal_mem x xs
  have hex : ∃ y ∈ x :: xs, (fun y => decide (y = pyMinVal x xs)) y = true :=
    ⟨pyMinVal x xs, hmem, by simp⟩
  have hi : (x :: xs).findIdx (fun y => decide (y = pyMinVal x xs)) < (x :: xs).length :=
    List.findIdx_lt_length_of_exists hex
  refine ⟨(x :: xs).findIdx (fun y => decide (y = pyMinVal x xs)), rfl, hi, ?_, ?_⟩
  · have h2 := List.findIdx_getElem (w := hi)
    have h3 := of_decide_eq_true h2
    simpa [List.get_eq_getElem] using h3
  · intro j hj hji
    have hfalse := List.not_of_lt_findIdx hji
    have hne : (x :: xs).get ⟨j, hj⟩ ≠ pyMinVal x xs := by
      simpa [List.get_eq_getElem] using of_decide_eq_false hfalse
    have hle : pyMinVal x xs ≤ (x :: xs).get ⟨j, hj⟩ :=
      pyMinVal_le x xs _ (List.get_mem _ _ _)
    exact lt_of_le_of_ne hle (Ne.symm hne)

theorem verify_ok_inv (env : VerifyEnv) (mn metric : String) (res : VerifyResult)
    (h : verify env mn metric = .ok res) :
    ∃ fs1 q qs, env.extract1 = .ok fs1 ∧
      outerPairs env metric fs1 = .ok (q :: qs) := by
  unfold verify at h
  split at h
  · exact absurd h (by simp)
  · rename_i fs1 h1
    split at h
    · exact absurd h (by simp)
    · rename_i prs hp
      cases prs with
      | nil => simp [pyMin] at h
      | cons q qs => exact ⟨fs1, q, qs, h1, hp⟩

theorem verify_ok_of_pairs (env : VerifyEnv) (mn metric : String)
    (fs1 : List VFace) (q : ℚ × Region × Region) (qs : List (ℚ × Region × Region))
    (h1 : env.extract1 = .ok fs1)
    (hp : outerPairs env metric fs1 = .ok (q :: qs)) :
    ∃ (i : Nat) (hi : i < (q :: qs).length) (res : VerifyResult),
      verify env mn metric = .ok res ∧
      res.distance = ((q :: qs).get ⟨i, hi⟩).1 ∧
      res.facial_area1 = ((q :: qs).get ⟨i, hi⟩).2.1 ∧
      res.facial_area2 = ((q :: qs).get ⟨i, hi⟩).2.2 ∧
      res.threshold = env.find_threshold mn metric ∧
      res.model = mn ∧
      res.similarity_metric = metric ∧
      (res.verified = true ↔ res.distance ≤ res.threshold) ∧
      (∀ j (hj : j < (q :: qs).length), res.distance ≤ ((q :: qs).get ⟨j, hj⟩).1) ∧
      (∀ j (hj : j < (q :: qs).length), j < i →
        res.distance < ((q :: qs).get ⟨j, hj⟩).1) := by
  obtain ⟨i, hargmin, hi, hget, hlt⟩ :=
    npArgmin_spec q.1 (qs.map (fun t : ℚ × Region × Region => t.1))
  have hlen : (q.1 :: qs.map (fun t : ℚ × Region × Region => t.1)).length =
      (q :: qs).length := by simp
  have hi' : i < (q :: qs).length := hlen ▸ hi
  have hri : i < ((q :: qs).map (fun t : ℚ × Region × Region => t.2)).length := by
    simpa using hi'
  have hcons1 : (q :: qs).map (fun t : ℚ × Region × Region => t.1) =
      q.1 :: qs.map (fun t : ℚ × Region × Region => t.1) := rfl
  refine ⟨i, hi', ?_⟩
  refine ⟨{ verified := decide (pyMinVal q.1
              (qs.map (fun t : ℚ × Region × Region => t.1)) ≤
              env.find_threshold mn metric),
            distance := pyMinVal q.1 (qs.map (fun t : ℚ × Region × Region => t.1)),
            threshold := env.find_threshold mn metric,
            model := mn, similarity_metric := metric,
            facial_area1 :=
              (((q :: qs).map (fun t : ℚ × Region × Region => t.2)).get ⟨i, hri⟩).1,
            facial_area2 :=
              (((q :: qs).map (fun t : ℚ × Region × Region => t.2)).get ⟨i, hri⟩).2 },
          ?_⟩
  have hmap2 : (((q :: qs).map (fun t : ℚ × Region × Region => t.2)).get ⟨i, hri⟩) =
      ((q :: qs).get ⟨i, hi'⟩).2 := by
    simp only [List.get_eq_getElem, List.getElem_map]
  have hmap1 : ((q :: qs).map (fun t : ℚ × Region × Region => t.1)).get
        ⟨i, by simpa using hi'⟩ = ((q :: qs).get ⟨i, hi'⟩).1 := by
    simp only [List.get_eq_getElem, List.getElem_map]
  have hmapj : ∀ (j : Nat) (hj : j < (q :: qs).length),
      (q.1 :: qs.map (fun t : ℚ × Region × Region => t.1)).get
          ⟨j, by simpa using hj⟩ = ((q :: qs).get ⟨j, hj⟩).1 := by
    intro j hj
    have hmj : ((q :: qs).map (fun t : ℚ × Region × Region => t.1)).get
        ⟨j, by simpa using hj⟩ = ((q :: qs).get ⟨j, hj⟩).1 := by
      simp only [List.get_eq_getElem, List.getElem_map]
    exact hmj
  refine ⟨?_, ?_, ?_, ?_, rfl, rfl, rfl, ?_, ?_, ?_⟩
  · simp only [verify, h1, hp, hcons1, pyMin]
    rw [hargmin]
    simp only [List.getElem?_eq_getElem hri]
    simp [List.get_eq_getElem]
  · rw [show pyMinVal q.1 (qs.map (fun t : ℚ × Region × Region => t.1)) =
        (q.1 :: qs.map (fun t : ℚ × Region × Region => t.1)).get ⟨i, hi⟩ from hget.symm]
    exact hmap1
  · rw [hmap2]
  · rw [hmap2]
  · exact decide_eq_true_iff
  · intro j hj
    have hmem : ((q :: qs).get ⟨j, hj⟩).1 ∈
        q.1 :: qs.map (fun t : ℚ × Region × Region => t.1) := by
      have hmm : ((q :: qs).get ⟨j, hj⟩).1 ∈
          (q :: qs).map (fun t : ℚ × Region × Region => t.1) :=
        List.mem_map_of_mem _ (List.get_mem _ _ _)
      simpa using hmm
    exact pyMinVal_le q.1 (qs.map (fun t : ℚ × Region × Region => t.1)) _ hmem
  · intro j hj hji
    rw [← hmapj j hj]
    exact hlt j (by simpa using hj) hji

/-! ### `get_image_metadata` lemmas -/

/-- **C1 counterexample**: on an input whose face extraction fails with
`ValueError` (no face found, detection enforced), `analyze` does not return
an empty sequence: it returns `[{}]`, a one-element list holding a single
empty record, so the claim "returns an empty sequence of records" is false
on the code. -/
theorem analyze_noface_not_empty_sequence :
    (analyze noFaceEnv).result = .ok [[]] ∧
    (analyze noFaceEnv).result ≠ .ok ([] : List PyDict) := by
  refine ⟨rfl, ?_⟩
  intro hcontra
  have h2 : (Except.ok [[]] : Except PyErr (List PyDict)) = .ok [] :=
    (rfl : (Except.ok [[]] : Except PyErr (List PyDict)) =
      (analyze noFaceEnv).result).trans hcontra
  have h3 : ([[]] : List PyDict) = [] := Except.ok.inj h2
  simp at h3

/-- **C1 (amended)**: on every input whose face extraction fails with
`ValueError` (no face found, detection enforced), `analyze` returns — without
raising — a one-element sequence containing a single empty record (no
region, no confidence, no attribute keys). -/
theorem analyze_noface_returns_singleton_empty_record
    (env : AnalyzeEnv) (h : env.extractResult = .error .valueError) :
    (analyze env).result = .ok [[]] := by
  simp only [analyze, h]

/-- Witness for `analyze_noface_returns_singleton_empty_record`. -/
theorem analyze_noface_returns_singleton_empty_record_witness :
    (analyze noFaceEnv).result = .ok [[]] :=
  analyze_noface_returns_singleton_empty_record noFaceEnv rfl

/-- **C2 (code behaviour at the failing input)**: with zero faces in both
images, and with zero faces in the second image only, `verify` raises the
`ValueError` produced by `min([])` — not a defined "no comparable faces"
error.  This exhibits the divergence the claim (and the spec's own
defect note) describes. -/
theorem verify_zero_faces_min_valueerror :
    verify vEnvNoFaces "VGG-Face" "cosine" = .error .valueError ∧
    verify vEnvOneEmpty "VGG-Face" "cosine" = .error .valueError :=
  ⟨rfl, rfl⟩

/-- **C3 (code behaviour at the failing input)**: with one face in each
image and the unrecognised metric name `"manhattan"`, `verify` does not
fail fast at entry with a configuration error: it runs extraction and
embedding first and then crashes inside the first pair's metric dispatch
(`dst.l2_normalize` on an unbound/float `dst`).  The nominally valid name
`"euclidean_l2"` crashes in exactly the same way. -/
theorem verify_unknown_metric_nameerror_not_fail_fast :
    verify vEnvW "VGG-Face" "manhattan" = .error .nameError ∧
    verify vEnvW "VGG-Face" "euclidean_l2" = .error .nameError :=
  ⟨rfl, rfl⟩

/-- **C7**: for every `analyze` call whose extraction and predictor
construction succeed, the output equals one record per non-degenerate face
in detection order — each crop with a zero dimension is skipped silently
(it contributes no record and raises no error), and every face with two
positive dimensions is still processed. -/
theorem analyze_skips_degenerate_crops
    (env : AnalyzeEnv) (faces : List FaceObj) (models : List (String × Model))
    (blog : List String)
    (hx : env.extractResult = .ok faces)
    (hb : buildModels env.build env.actions = (.ok models, blog)) :
    (analyze env).result =
      .ok ((faces.filter nonDegenerate).map
        (fun f => (processFace env.predict models f).1)) := by
  simp only [analyze, hx, hb]
  rw [runFaces_fst_eq]

/-- Witness for `analyze_skips_degenerate_crops`: one degenerate face and
one proper face give exactly one record. -/
theorem analyze_skips_degenerate_crops_witness :
    (analyze degEnv).result =
      .ok ((([degFace, wFace] : List FaceObj).filter nonDegenerate).map
        (fun f => (processFace degEnv.predict [("age", 1)] f).1)) :=
  analyze_skips_degenerate_crops degEnv [degFace, wFace] [("age", 1)] ["Age"]
    rfl rfl

/-- **C10**: when the construction of a requested attribute's predictor
itself raises (`F.build_model` inside the `models` dict comprehension), the
error propagates out of `analyze` and aborts the whole call — the
per-attribute skip-on-error recovery does not cover it. -/
theorem analyze_build_failure_propagates
    (env : AnalyzeEnv) (faces : List FaceObj) (pre post : List (String × Bool))
    (a : String) (e : PyErr)
    (hx : env.extractResult = .ok faces)
    (hact : env.actions = pre ++ (a, true) :: post)
    (hpre : ∀ p ∈ pre, p.2 = true → ∃ m, env.build (pyCapitalize p.1) = .ok m)
    (ha : env.build (pyCapitalize a) = .error e) :
    (analyze env).result = .error e := by
  obtain ⟨log, hlog⟩ := buildModels_error_append env.build pre a post e hpre ha
  rw [← hact] at hlog
  simp only [analyze, hx, hlog]

/-- Witness for `analyze_build_failure_propagates`: the `"emotion"`
predictor fails to load and the whole call errors. -/
theorem analyze_build_failure_propagates_witness :
    (analyze buildFailEnv).result = .error (.otherError 9) :=
  analyze_build_failure_propagates buildFailEnv [wFace] [("age", true)] []
    "emotion" (.otherError 9) rfl rfl
    (by
      intro p hp _
      have hp2 : p = ("age", true) := by simpa using hp
      rw [hp2]
      exact ⟨1, rfl⟩)
    rfl

/-- **C4 counterexample**: the frozen claim quantifies over every `verify`
call with N, M ≥ 1 faces, for any metric of the closed set — but with the
nominally valid metric name `"euclidean_l2"` and 2 × 1 faces, the pair loop
crashes at the very first pair's dispatch (`dst.l2_normalize` on an unbound
`dst`): no distance list is built, zero of the N·M = 2 pairs are evaluated,
and `verify` returns no pair at all. -/
theorem verify_euclidean_l2_evaluates_no_pairs :
    outerPairs vEnvW "euclidean_l2" wFs1 = .error .nameError ∧
    verify vEnvW "VGG-Face" "euclidean_l2" = .error .nameError :=
  ⟨rfl, rfl⟩

/-- **C4 (amended)**: for the metrics whose dispatch succeeds — `"cosine"`
and `"euclidean"`; the `"euclidean_l2"` branch always raises, see the
counterexample — with N ≥ 1 and M ≥ 1 extracted faces, `verify` evaluates
the distance of exactly N·M pairs, the full cross-product, row-major in
extraction order, and returns the pair of globally minimum distance with
its two regions; ties go to the first-encountered pair (stable argmin:
every strictly earlier pair has a strictly larger distance). -/
theorem verify_evaluates_full_cross_product_stable_argmin
    (env : VerifyEnv) (mn metric : String) (fs1 fs2 : List VFace)
    (hm : metric = "cosine" ∨ metric = "euclidean")
    (h1 : env.extract1 = .ok fs1) (h2 : env.extract2 = .ok fs2)
    (hn : 1 ≤ fs1.length) (hm2 : 1 ≤ fs2.length) :
    outerPairs env metric fs1 = .ok (crossList env metric fs1 fs2) ∧
    (crossList env metric fs1 fs2).length = fs1.length * fs2.length ∧
    ∃ (res : VerifyResult) (i : Nat)
      (hi : i < (crossList env metric fs1 fs2).length),
      verify env mn metric = .ok res ∧
      res.distance = ((crossList env metric fs1 fs2).get ⟨i, hi⟩).1 ∧
      res.facial_area1 = ((crossList env metric fs1 fs2).get ⟨i, hi⟩).2.1 ∧
      res.facial_area2 = ((crossList env metric fs1 fs2).get ⟨i, hi⟩).2.2 ∧
      (∀ j (hj : j < (crossList env metric fs1 fs2).length),
        res.distance ≤ ((crossList env metric fs1 fs2).get ⟨j, hj⟩).1) ∧
      ∀ j (hj : j < (crossList env metric fs1 fs2).length), j < i →
        res.distance < ((crossList env metric fs1 fs2).get ⟨j, hj⟩).1 := by
  have houter := outerPairs_valid env metric fs2 hm h2 fs1
  have hlen := crossList_length env metric fs2 fs1
  obtain ⟨q, qs, hc⟩ : ∃ q qs, crossList env metric fs1 fs2 = q :: qs := by
    cases hcc : crossList env metric fs1 fs2 with
    | nil =>
      exfalso
      rw [hcc] at hlen
      have hge : 1 * 1 ≤ fs1.length * fs2.length := Nat.mul_le_mul hn hm2
      simp only [List.length_nil] at hlen
      rw [← hlen] at hge
      simp at hge
    | cons q qs => exact ⟨q, qs, rfl⟩
  rw [hc] at houter hlen ⊢
  obtain ⟨i, hi, res, hver, hdist, hfa1, hfa2, _, _, _, _, hle, hlt⟩ :=
    verify_ok_of_pairs env mn metric fs1 q qs h1 houter
  exact ⟨houter, hlen, res, i, hi, hver, hdist, hfa1, hfa2, hle, hlt⟩

/-- Witness for `verify_evaluates_full_cross_product_stable_argmin`:
2 × 1 faces, cosine metric. -/
theorem verify_evaluates_full_cross_product_stable_argmin_witness :
    outerPairs vEnvW "cosine" wFs1 = .ok (crossList vEnvW "cosine" wFs1 wFs2) ∧
    (crossList vEnvW "cosine" wFs1 wFs2).length = wFs1.length * wFs2.length ∧
    ∃ (res : VerifyResult) (i : Nat)
      (hi : i < (crossList vEnvW "cosine" wFs1 wFs2).length),
      verify vEnvW "VGG-Face" "cosine" = .ok res ∧
      res.distance = ((crossList vEnvW "cosine" wFs1 wFs2).get ⟨i, hi⟩).1 ∧
      res.facial_area1 = ((crossList vEnvW "cosine" wFs1 wFs2).get ⟨i, hi⟩).2.1 ∧
      res.facial_area2 = ((crossList vEnvW "cosine" wFs1 wFs2).get ⟨i, hi⟩).2.2 ∧
      (∀ j (hj : j < (crossList vEnvW "cosine" wFs1 wFs2).length),
        res.distance ≤ ((crossList vEnvW "cosine" wFs1 wFs2).get ⟨j, hj⟩).1) ∧
      ∀ j (hj : j < (crossList vEnvW "cosine" wFs1 wFs2).length), j < i →
        res.distance < ((crossList vEnvW "cosine" wFs1 wFs2).get ⟨j, hj⟩).1 :=
  verify_evaluates_full_cross_product_stable_argmin vEnvW "VGG-Face" "cosine"
    wFs1 wFs2 (Or.inl rfl) rfl rfl (by decide) (by decide)

/-- **C5**: whenever `verify` returns a result, its `verified` flag is true
iff the globally minimum pairwise distance is at most the threshold
resolved for (model_name, distance_metric), and the returned `distance`
and `threshold` fields are exactly those two values. -/
theorem verify_verified_iff_min_distance_le_threshold
    (env : VerifyEnv) (mn metric : String) (res : VerifyResult)
    (h : verify env mn metric = .ok res) :
    res.threshold = env.find_threshold mn metric ∧
    (res.verified = true ↔ res.distance ≤ res.threshold) ∧
    ∃ fs1 prs, env.extract1 = .ok fs1 ∧
      outerPairs env metric fs1 = .ok prs ∧
      res.distance ∈ prs.map (fun t : ℚ × Region × Region => t.1) ∧
      ∀ d ∈ prs.map (fun t : ℚ × Region × Region => t.1), res.distance ≤ d := by
  obtain ⟨fs1, q, qs, h1, hp⟩ := verify_ok_inv env mn metric res h
  obtain ⟨i, hi, res', hver, hdist, _, _, hthr, _, _, hiff, hle, _⟩ :=
    verify_ok_of_pairs env mn metric fs1 q qs h1 hp
  have heq : res = res' := Except.ok.inj (h.symm.trans hver)
  subst heq
  refine ⟨hthr, hiff, fs1, q :: qs, h1, hp, ?_, ?_⟩
  · rw [hdist]
    exact List.mem_map_of_mem _ (List.get_mem _ _ _)
  · intro d hd
    obtain ⟨t, ht, hdt⟩ := List.mem_map.mp hd
    obtain ⟨n, hn⟩ := List.mem_iff_get.mp ht
    rw [← hdt, ← hn]
    exact hle n.1 n.2

/-- Witness for `verify_verified_iff_min_distance_le_threshold`. -/
theorem verify_verified_iff_min_distance_le_threshold_witness :
    wRes.threshold = vEnvW.find_threshold "VGG-Face" "cosine" ∧
    (wRes.verified = true ↔ wRes.distance ≤ wRes.threshold) ∧
    ∃ fs1 prs, vEnvW.extract1 = .ok fs1 ∧
      outerPairs vEnvW "cosine" fs1 = .ok prs ∧
      wRes.distance ∈ prs.map (fun t : ℚ × Region × Region => t.1) ∧
      ∀ d ∈ prs.map (fun t : ℚ × Region × Region => t.1), wRes.distance ≤ d :=
  verify_verified_iff_min_distance_le_threshold vEnvW "VGG-Face" "cosine" wRes
    (by rfl)

/-- **C6**: when a requested attribute's predictor invocation or conversion
raises on some face, that face's record still appears in the output with its
region and face_confidence present and the failed attribute's key absent
(not null — the key is simply not in the record), while the remaining
attributes and faces are still processed (one record per non-degenerate
face). -/
theorem analyze_failed_attribute_key_absent
    (env : AnalyzeEnv) (faces : List FaceObj) (models : List (String × Model))
    (blog : List String) (f : FaceObj) (a : String) (m : Model) (e : PyErr)
    (k : String)
    (hx : env.extractResult = .ok faces)
    (hb : buildModels env.build env.actions = (.ok models, blog))
    (hf : f ∈ faces) (hnd : nonDegenerate f = true)
    (ham : (a, m) ∈ models)
    (hfail : env.predict a m f = .error e)
    (hk1 : k ≠ "region") (hk2 : k ≠ "face_confidence")
    (hsafe : ∀ a' m' kvs, (a', m') ∈ models → env.predict a' m' f = .ok kvs →
      k ∉ dictKeys kvs ∧ "region" ∉ dictKeys kvs ∧
      "face_confidence" ∉ dictKeys kvs) :
    ∃ recs, (analyze env).result = .ok recs ∧
      (processFace env.predict models f).1 ∈ recs ∧
      dictGet (processFace env.predict models f).1 "region" =
        some (Value.vRegion f.region) ∧
      dictGet (processFace env.predict models f).1 "face_confidence" =
        some (Value.vRat f.confidence) ∧
      dictGet (processFace env.predict models f).1 k = none ∧
      k ∉ dictKeys (processFace env.predict models f).1 ∧
      recs.length = (faces.filter nonDegenerate).length := by
  refine ⟨(faces.filter nonDegenerate).map
    (fun f => (processFace env.predict models f).1), ?_, ?_, ?_, ?_, ?_, ?_, ?_⟩
  · simp only [analyze, hx, hb]
    rw [runFaces_fst_eq]
  · exact List.mem_map_of_mem _ (List.mem_filter.mpr ⟨hf, hnd⟩)
  · have hr : dictGet (processFace env.predict models f).1 "region" =
        dictGet (initRecord f) "region" :=
      processFace_dictGet_untouched env.predict f "region" models (initRecord f)
        (fun a' m' kvs ham' hp' => (hsafe a' m' kvs ham' hp').2.1)
    rw [hr]
    rfl
  · have hr : dictGet (processFace env.predict models f).1 "face_confidence" =
        dictGet (initRecord f) "face_confidence" :=
      processFace_dictGet_untouched env.predict f "face_confidence" models
        (initRecord f)
        (fun a' m' kvs ham' hp' => (hsafe a' m' kvs ham' hp').2.2)
    rw [hr]
    rfl
  · have hr : dictGet (processFace env.predict models f).1 k =
        dictGet (initRecord f) k :=
      processFace_dictGet_untouched env.predict f k models (initRecord f)
        (fun a' m' kvs ham' hp' => (hsafe a' m' kvs ham' hp').1)
    rw [hr]
    simp [initRecord, dictGet, Ne.symm hk1, Ne.symm hk2]
  · have hr : dictGet (processFace env.predict models f).1 k =
        dictGet (initRecord f) k :=
      processFace_dictGet_untouched env.predict f k models (initRecord f)
        (fun a' m' kvs ham' hp' => (hsafe a' m' kvs ham' hp').1)
    have hnone : dictGet (processFace env.predict models f).1 k = none := by
      rw [hr]
      simp [initRecord, dictGet, Ne.symm hk1, Ne.symm hk2]
    exact (dictGet_eq_none_iff _ _).mp hnone
  · rw [List.length_map]

/-- Witness for `analyze_failed_attribute_key_absent`: one face, the `"age"`
predictor raises, the `"emotion"` predictor succeeds. -/
theorem analyze_failed_attribute_key_absent_witness :
    ∃ recs, (analyze attrEnv).result = .ok recs ∧
      (processFace attrEnv.predict [("age", 1), ("emotion", 2)] wFace).1 ∈ recs ∧
      dictGet (processFace attrEnv.predict [("age", 1), ("emotion", 2)] wFace).1
        "region" = some (Value.vRegion wFace.region) ∧
      dictGet (processFace attrEnv.predict [("age", 1), ("emotion", 2)] wFace).1
        "face_confidence" = some (Value.vRat wFace.confidence) ∧
      dictGet (processFace attrEnv.predict [("age", 1), ("emotion", 2)] wFace).1
        "age" = none ∧
      "age" ∉ dictKeys (processFace attrEnv.predict
        [("age", 1), ("emotion", 2)] wFace).1 ∧
      recs.length = (([wFace] : List FaceObj).filter nonDegenerate).length :=
  analyze_failed_attribute_key_absent attrEnv [wFace]
    [("age", 1), ("emotion", 2)] ["Age", "Emotion"] wFace "age" 1
    (.otherError 7) "age" rfl rfl (by simp) (by decide) (by simp) rfl
    (by decide) (by decide)
    (by
      intro a' m' kvs ham' hp'
      by_cases ha' : a' = "age"
      · rw [ha'] at hp'
        simp [attrEnv] at hp'
      · simp only [attrEnv, if_neg ha'] at hp'
        have hkv : kvs = [("emotion", Value.vOpaque 3)] := (Except.ok.inj hp').symm
        subst hkv
        refine ⟨?_, ?_, ?_⟩ <;> simp [dictKeys])

/-- **C8**: each requested attribute's predictor is constructed exactly once
per `analyze` call — the `build_model` call log equals the enabled actions
(capitalised), in order, each appearing exactly once, independent of the
face list — and every attribute-loop iteration for a given action uses the
same predictor instance across all faces of the call. -/
theorem analyze_builds_each_predictor_once
    (env : AnalyzeEnv) (faces : List FaceObj) (models : List (String × Model))
    (blog : List String)
    (hx : env.extractResult = .ok faces)
    (hb : buildModels env.build env.actions = (.ok models, blog))
    (hnodup : ((env.actions.filter (fun p => p.2)).map
      (fun p => pyCapitalize p.1)).Nodup) :
    (analyze env).buildLog =
      (env.actions.filter (fun p => p.2)).map (fun p => pyCapitalize p.1) ∧
    (∀ p ∈ env.actions, p.2 = true →
      (analyze env).buildLog.count (pyCapitalize p.1) = 1) ∧
    (∀ a m m', (a, m) ∈ (analyze env).useLog →
      (a, m') ∈ (analyze env).useLog → m = m') := by
  have hlog : (analyze env).buildLog = blog := by
    simp only [analyze, hx, hb]
  have huse : (analyze env).useLog = (runFaces env.predict models faces).2 := by
    simp only [analyze, hx, hb]
  obtain ⟨hb1, hb2, _⟩ := buildModels_ok_spec env.build env.actions models blog hb
  refine ⟨hlog.trans hb1, ?_, ?_⟩
  · intro p hp hs
    rw [hlog, hb1]
    have hmem : pyCapitalize p.1 ∈
        (env.actions.filter (fun p => p.2)).map (fun p => pyCapitalize p.1) :=
      List.mem_map_of_mem _ (List.mem_filter.mpr ⟨hp, by simp [hs]⟩)
    exact List.count_eq_one_of_mem hnodup hmem
  · have hmodnd : (models.map Prod.fst).Nodup := by
      rw [hb2]
      have h2 : ((env.actions.filter (fun p => p.2)).map Prod.fst).map
          pyCapitalize = (env.actions.filter (fun p => p.2)).map
          (fun p => pyCapitalize p.1) := by
        rw [List.map_map]
        rfl
      exact List.Nodup.of_map pyCapitalize (h2 ▸ hnodup)
    intro a m m' hm hm'
    rw [huse] at hm hm'
    exact assoc_nodup_unique models hmodnd a m m'
      (runFaces_useLog_subset env.predict models faces _ hm)
      (runFaces_useLog_subset env.predict models faces _ hm')

/-- Witness for `analyze_builds_each_predictor_once`. -/
theorem analyze_builds_each_predictor_once_witness :
    (analyze attrEnv).buildLog =
      (attrEnv.actions.filter (fun p => p.2)).map (fun p => pyCapitalize p.1) ∧
    (∀ p ∈ attrEnv.actions, p.2 = true →
      (analyze attrEnv).buildLog.count (pyCapitalize p.1) = 1) ∧
    (∀ a m m', (a, m) ∈ (analyze attrEnv).useLog →
      (a, m') ∈ (analyze attrEnv).useLog → m = m') :=
  analyze_builds_each_predictor_once attrEnv [wFace]
    [("age", 1), ("emotion", 2)] ["Age", "Emotion"] rfl rfl (by decide)

end FeelFlow
